import Mathlib

/-!
Verification of the schema-change operation-generation dispatcher
(`pkg/sql/schemachanger/scplan/internal/opgen/op_funcs.go`).

The Go source is shallowly embedded below. Types from sibling packages
that are not part of the excerpt (`scpb`, `scop`, `screl`, `protoutil`,
`redact`) are modelled from the specification, as noted on each
definition. Go panics are modelled as `Except.error` values whose class
records that they were raised by `errors.AssertionFailedf` (fatal) or by
the Go runtime (index out of range), as opposed to ordinary errors
returned by `errors.Errorf` (recoverable).
-/

set_option autoImplicit false

namespace Opgen

/-- Modelled from the spec: an `scpb.Element` is a polymorphic value whose
identity, for map keys and for reflection, is its dynamic type (`kind`)
together with its value (`id`). -/
structure Element where
  kind : Nat
  id : Nat
deriving DecidableEq

/-- Modelled from the spec: `screl.ElementString`, the display string of an
element, used in assertion-failure messages. -/
def elementString (e : Element) : String :=
  "Element[kind=" ++ toString e.kind ++ ", id=" ++ toString e.id ++ "]"

/-- Modelled from the spec: `scpb.TargetMetadata` (statement id plus other
per-target metadata fields). -/
structure TargetMetadata where
  statementID : Nat
  subWorkID : Nat
deriving DecidableEq

/-- Modelled from the spec: session-level `scpb.Authorization`. -/
structure Authorization where
  userName : String
  appName : String
deriving DecidableEq

/-- Modelled from the spec: an `scpb.Statement` record (redacted SQL text and
statement tag), indexed by `StatementID` in the target state. -/
structure Statement where
  redactedStatement : String
  statementTag : String
deriving DecidableEq

/-- Modelled from the spec: an `scpb.Target` is an
`(Element, TargetStatus, Metadata)` triple. The `element` field stands both
for the `ElementProto` payload and for the value returned by the
`Target.Element()` accessor. -/
structure Target where
  element : Element
  targetStatus : Nat
  metadata : TargetMetadata
deriving DecidableEq

/-- Modelled from the spec: `scpb.TargetState` — ordered targets, the
statement table, and session authorization. -/
structure TargetState where
  targets : List Target
  statements : List Statement
  authorization : Authorization
deriving DecidableEq

/-- Modelled from the spec: `scpb.CurrentState` wraps a `TargetState` and the
rollback flag (per-element current statuses are not used by this code and
are omitted). -/
structure CurrentState where
  targetState : TargetState
  inRollback : Bool
deriving DecidableEq

/-- Error class of a Go error value: ordinary recoverable errors built with
`errors.Errorf`, assertion failures built with `errors.AssertionFailedf`
(fatal when panicked), and Go runtime panics such as index-out-of-range. -/
inductive ErrClass
  | recoverable
  | assertionFailed
  | runtimePanic
deriving DecidableEq

/-- A Go error (or panic payload): its class and message. -/
structure GoError where
  cls : ErrClass
  msg : String
deriving DecidableEq

/-- Go slice indexing `l[i]`: panics (runtime error) when out of range. -/
def goIndex {α : Type} (l : List α) (i : Nat) : Except GoError α :=
  match l.get? i with
  | some x => Except.ok x
  | none => Except.error ⟨ErrClass.runtimePanic, "index out of range"⟩

/-- The `elementToTarget` map of `targetsWithElementMap`, as an association
list; Go map lookup returns the first (unique) binding of the key. -/
def lookupET : List (Element × Nat) → Element → Option Nat
  | [], _ => none
  | (k, v) :: rest, e => if k = e then some v else lookupET rest e

/-- Structure `targetsWithElementMap`: embeds the `TargetState`, adds the
element-to-position map and the `InRollback` flag
(`op_funcs.go` lines 74–78). -/
structure targetsWithElementMap where
  targetState : TargetState
  elementToTarget : List (Element × Nat)
  inRollback : Bool

/-- The loop body of `makeTargetsWithElementMap` (`op_funcs.go` lines 86–95):
walk the targets in order; a duplicate element is a panic
(`errors.AssertionFailedf`), otherwise record `element ↦ position`. -/
def buildElementToTarget :
    List Target → Nat → List (Element × Nat) → Except GoError (List (Element × Nat))
  | [], _, m => Except.ok m
  | t :: rest, i, m =>
    match lookupET m t.element with
    | some _ =>
      Except.error ⟨ErrClass.assertionFailed,
        "duplicate targets for " ++ elementString t.element⟩
    | none => buildElementToTarget rest (i + 1) (m ++ [(t.element, i)])

/-- Function `makeTargetsWithElementMap` (`op_funcs.go` lines 80–97). The Go panic on
duplicate targets is modelled as `Except.error`. -/
def makeTargetsWithElementMap (cs : CurrentState) : Except GoError targetsWithElementMap :=
  match buildElementToTarget cs.targetState.targets 0 [] with
  | Except.error e => Except.error e
  | Except.ok m =>
    Except.ok { targetState := cs.targetState, elementToTarget := m,
                inRollback := cs.inRollback }

/-- Record `scop.EventBase` (fields filled by `newLogEventBase`). In this
value-level model the deep copies made by `protoutil.Clone` are plain
values; the aliasing behaviour of the copies is modelled separately on an
explicit heap. -/
structure EventBase where
  targetMetadata : TargetMetadata
  authorization : Authorization
  statement : String
  statementTag : String
deriving DecidableEq

/-- Record `scop.LogEvent` (fields filled by `newLogEventOp`). -/
structure LogEvent where
  eventBase : EventBase
  element : Element
  targetStatus : Nat
deriving DecidableEq

/-- Record `scop.StatementForDropJob` (fields filled by `statementForDropJob`). -/
structure StatementForDropJob where
  statement : String
  statementID : Nat
  rollback : Bool
deriving DecidableEq

/-- Modelled from the spec: `redact.RedactableString.StripMarkers` removes
the redaction marker characters from the redacted text, yielding a
normalized displayable string. -/
def stripMarkers (s : String) : String :=
  String.mk (s.toList.filter (fun c => c ≠ '‹' ∧ c ≠ '›'))

/-- Function `newLogEventBase` (`op_funcs.go` lines 24–38): looking up an element
absent from the index panics with `errors.AssertionFailedf` (modelled as
`Except.error`); otherwise the event carries copies of the target's
metadata and the authorization, and the statement text and tag resolved
through the statement table. -/
def newLogEventBase (e : Element) (md : targetsWithElementMap) : Except GoError EventBase :=
  match lookupET md.elementToTarget e with
  | none =>
    Except.error ⟨ErrClass.assertionFailed,
      "could not find element " ++ elementString e ++ " in target state"⟩
  | some idx =>
    match goIndex md.targetState.targets idx with
    | Except.error err => Except.error err
    | Except.ok t =>
      match goIndex md.targetState.statements t.metadata.statementID with
      | Except.error err => Except.error err
      | Except.ok stmt =>
        Except.ok { targetMetadata := t.metadata,
                    authorization := md.targetState.authorization,
                    statement := stmt.redactedStatement,
                    statementTag := stmt.statementTag }

/-- Function `newLogEventOp` (`op_funcs.go` lines 40–53): same absent-element panic,
then builds a `LogEvent` embedding the base event, a copy of the element
payload, and the target status. -/
def newLogEventOp (e : Element) (md : targetsWithElementMap) : Except GoError LogEvent :=
  match lookupET md.elementToTarget e with
  | none =>
    Except.error ⟨ErrClass.assertionFailed,
      "could not find element " ++ elementString e ++ " in target state"⟩
  | some idx =>
    match goIndex md.targetState.targets idx with
    | Except.error err => Except.error err
    | Except.ok t =>
      match newLogEventBase e md with
      | Except.error err => Except.error err
      | Except.ok base =>
        Except.ok { eventBase := base, element := t.element,
                    targetStatus := t.targetStatus }

/-- Function `statementForDropJob` (`op_funcs.go` lines 55–66). Note the unchecked
map access `md.elementToTarget[e]`: a Go map read of an absent key yields
the zero value `0`, modelled by `Option.getD 0`. Slice indexing may still
panic (runtime error) when out of range. -/
def statementForDropJob (e : Element) (md : targetsWithElementMap) :
    Except GoError StatementForDropJob :=
  match goIndex md.targetState.targets ((lookupET md.elementToTarget e).getD 0) with
  | Except.error err => Except.error err
  | Except.ok t =>
    match goIndex md.targetState.statements t.metadata.statementID with
    | Except.error err => Except.error err
    | Except.ok stmt =>
      Except.ok { statement := stripMarkers stmt.redactedStatement,
                  statementID := t.metadata.statementID,
                  rollback := md.inRollback }

/-- Modelled from the spec: `scop.Type`, the operation category. The Go zero
value of the type (returned for an empty group and alongside errors) is
none of the three named categories and is modelled as `unspecified`. -/
inductive ScopType
  | unspecified
  | mutation
  | validation
  | backfill
deriving DecidableEq

/-- An operation value (`scop.Op`); the dispatcher treats operations as
opaque, so they are modelled as bare identifiers. -/
abbrev Op := Nat

/-- Modelled from the spec: the `reflect.Kind` distinctions this code makes
(function values, pointer return types, anything else). -/
inductive RKind
  | func
  | ptr
  | otherKind
deriving DecidableEq

/-- Modelled from the spec: the reflect type of one function argument — the
dynamic type of an element kind, the `*targetsWithElementMap` pointer type,
or any other type. -/
inductive ArgType
  | elemT (kind : Nat)
  | twemPtr
  | otherArg (n : Nat)
deriving DecidableEq

/-- Modelled from the spec: the reflect description of a return type — its
kind and which of the `scop` capability interfaces
(`Op`, `MutationOp`, `ValidationOp`, `BackfillOp`) it implements. -/
structure OutDesc where
  kind : RKind
  implOp : Bool
  implMutationOp : Bool
  implValidationOp : Bool
  implBackfillOp : Bool
deriving DecidableEq

/-- A candidate `interface{}` value passed to `checkOpFunc`: its reflective
shape (`isFunc`, argument types, return types) and, when it is a function,
its behaviour. A one-argument function ignores the second (index) argument,
which the dispatcher then passes as `none`; a `none` result models a nil
returned pointer. -/
structure Candidate where
  isFunc : Bool
  inTypes : List ArgType
  outTypes : List OutDesc
  call : Element → Option targetsWithElementMap → Option Op

instance : Inhabited OutDesc :=
  ⟨⟨RKind.otherKind, false, false, false, false⟩⟩

/-- Function `checkOpFunc` (`op_funcs.go` lines 144–185): validates the candidate's
shape (function; one element argument, optionally followed by the
`*targetsWithElementMap` argument; `NumOut == 1`; `Out(0)` — here
`fn.outTypes.headD default` — of pointer kind implementing `scop.Op`) with
recoverable errors, then resolves the category by the source's switch
order Mutation, Validation, Backfill, failing with an `AssertionFailedf`
error when none matches. -/
def checkOpFunc (el : Element) (fn : Candidate) : Except GoError ScopType :=
  if fn.isFunc = false then
    Except.error ⟨ErrClass.recoverable, "expected a func"⟩
  else if fn.inTypes ≠ [ArgType.elemT el.kind] ∧
      fn.inTypes ≠ [ArgType.elemT el.kind, ArgType.twemPtr] then
    Except.error ⟨ErrClass.recoverable,
      "expected a func with one argument of the element type"⟩
  else if fn.outTypes.length ≠ 1 then
    Except.error ⟨ErrClass.recoverable,
      "expected a func with one return value of a pointer type which implements Op"⟩
  else if (fn.outTypes.headD default).kind ≠ RKind.ptr ∨
      (fn.outTypes.headD default).implOp = false then
    Except.error ⟨ErrClass.recoverable,
      "expected a func with one return value of a pointer type which implements Op"⟩
  else if (fn.outTypes.headD default).implMutationOp then Except.ok ScopType.mutation
  else if (fn.outTypes.headD default).implValidationOp then Except.ok ScopType.validation
  else if (fn.outTypes.headD default).implBackfillOp then Except.ok ScopType.backfill
  else
    Except.error ⟨ErrClass.assertionFailed,
      "implemented Op but does not conform to any known type"⟩

/-- The compiled dispatch closure type `opsFunc` (`op_funcs.go` line 101). -/
abbrev opsFunc := Element → targetsWithElementMap → List Op

/-- The closure returned by `makeOpsFunc` (`op_funcs.go` lines 118–134):
call each compiled function in registration order — with only the element
for one-argument functions, with the element and the index otherwise — and
append each non-nil result. -/
def dispatchOps (funcValues : List Candidate) : opsFunc :=
  fun element md =>
    funcValues.foldl
      (fun ret fn =>
        let out :=
          if fn.inTypes.length = 1 then fn.call element none
          else fn.call element (some md)
        match out with
        | none => ret
        | some op => ret ++ [op])
      []

/-- The registration loop of `makeOpsFunc` (`op_funcs.go` lines 106–117):
check each candidate, reject a category conflicting with the running
`opType` once at least one function has been accepted, and accumulate the
function values in order. -/
def compileLoop (el : Element) :
    List Candidate → ScopType → List Candidate →
    Except GoError (ScopType × List Candidate)
  | [], opType, funcValues => Except.ok (opType, funcValues)
  | fn :: rest, opType, funcValues =>
    match checkOpFunc el fn with
    | Except.error e => Except.error e
    | Except.ok typ =>
      if 0 < funcValues.length ∧ typ ≠ opType then
        Except.error ⟨ErrClass.recoverable, "conflicting operation types"⟩
      else
        compileLoop el rest typ (funcValues ++ [fn])

/-- Function `makeOpsFunc` (`op_funcs.go` lines 103–135): run the registration loop
from the zero category and the empty function list, then pair the dispatch
closure with the resolved category. -/
def makeOpsFunc (el : Element) (fns : List Candidate) :
    Except GoError (opsFunc × ScopType) :=
  match compileLoop el fns ScopType.unspecified [] with
  | Except.error e => Except.error e
  | Except.ok (opType, funcValues) =>
    Except.ok (dispatchOps funcValues, opType)

/-! ### Storage-level model of the defensive copies

`newLogEventBase` fills the event with `*protoutil.Clone(&t.Metadata)` and
`*protoutil.Clone(&md.Authorization)`. To state that the copies are
independent of the source records, the records are placed in an explicit
heap (a list of cells addressed by position) and the builder is re-traced
at that level. -/

/-- A heap of records of one proto type, addressed by position. -/
abbrev Heap (α : Type) := List α

/-- Dereference an address. -/
def readH {α : Type} (h : Heap α) (a : Nat) : Option α := h.get? a

/-- Mutate the record stored at an address. -/
def writeH {α : Type} (h : Heap α) (a : Nat) (v : α) : Heap α := h.set a v

/-- Modelled from the spec: `protoutil.Clone` returns a structurally equal
deep copy of the record at `a`, in freshly allocated storage. -/
def cloneH {α : Type} (h : Heap α) (a : Nat) : Heap α × Nat :=
  (h ++ (h.get? a).toList, h.length)

/-- A target whose metadata record lives at a heap address. -/
structure TargetR where
  element : Element
  mdAddr : Nat

/-- The storage-level view of a `targetsWithElementMap`: targets pointing at
metadata cells, the element map, and the address of the authorization
record. -/
structure TwemRef where
  targetsR : List TargetR
  etMap : List (Element × Nat)
  authAddr : Nat

/-- The storage holding the plan's metadata and authorization records. -/
structure PlanStore where
  mdHeap : Heap TargetMetadata
  authHeap : Heap Authorization

/-- The storage-level view of the event built by `newLogEventBase`: the
addresses of its cloned metadata and authorization records. -/
structure EventBaseRef where
  mdAddr : Nat
  authAddr : Nat

/-- Function `newLogEventBase` (`op_funcs.go` lines 24–38) re-traced at storage
level: look the element up, then clone the target's metadata record and
the authorization record into fresh cells and return their addresses. -/
def newLogEventBaseH (st : PlanStore) (e : Element) (md : TwemRef) :
    Except GoError (PlanStore × EventBaseRef) :=
  match lookupET md.etMap e with
  | none =>
    Except.error ⟨ErrClass.assertionFailed,
      "could not find element " ++ elementString e ++ " in target state"⟩
  | some idx =>
    match goIndex md.targetsR idx with
    | Except.error err => Except.error err
    | Except.ok t =>
      let mdClone := cloneH st.mdHeap t.mdAddr
      let authClone := cloneH st.authHeap md.authAddr
      Except.ok ({ mdHeap := mdClone.1, authHeap := authClone.1 },
                 { mdAddr := mdClone.2, authAddr := authClone.2 })

/-! ### Concrete fixtures used by witnesses and counterexamples -/

/-- A concrete element (kind 1, value 1). -/
def elemA : Element := ⟨1, 1⟩

/-- A concrete element of the same kind, distinct from `elemA`. -/
def elemB : Element := ⟨1, 2⟩

/-- Metadata for `elemA`'s target, pointing at statement 0. -/
def mdMetaA : TargetMetadata := { statementID := 0, subWorkID := 7 }

/-- A concrete authorization record. -/
def auth0 : Authorization := { userName := "root", appName := "app" }

/-- A concrete statement record whose redacted text carries markers. -/
def stmtRec0 : Statement :=
  { redactedStatement := "DROP TABLE ‹t›", statementTag := "DROP TABLE" }

/-- A target state with a single target, for `elemA`. -/
def ts0 : TargetState :=
  { targets := [{ element := elemA, targetStatus := 1, metadata := mdMetaA }],
    statements := [stmtRec0], authorization := auth0 }

/-- A current state over `ts0`, not in rollback. -/
def cs0 : CurrentState := { targetState := ts0, inRollback := false }

/-- The index `makeTargetsWithElementMap` builds from `cs0`. -/
def md0 : targetsWithElementMap :=
  { targetState := ts0, elementToTarget := [(elemA, 0)], inRollback := false }

/-- A current state whose two targets reference the same element. -/
def csDup : CurrentState :=
  { targetState :=
      { targets := [{ element := elemA, targetStatus := 1, metadata := mdMetaA },
                    { element := elemA, targetStatus := 2, metadata := mdMetaA }],
        statements := [stmtRec0], authorization := auth0 },
    inRollback := false }

/-- A current state with two targets for distinct elements. -/
def cs2 : CurrentState :=
  { targetState :=
      { targets := [{ element := elemA, targetStatus := 1, metadata := mdMetaA },
                    { element := elemB, targetStatus := 2, metadata := mdMetaA }],
        statements := [stmtRec0], authorization := auth0 },
    inRollback := false }

/-- A return type implementing `Op` and exactly the Mutation capability. -/
def outMut : OutDesc :=
  { kind := RKind.ptr, implOp := true, implMutationOp := true,
    implValidationOp := false, implBackfillOp := false }

/-- A return type implementing `Op` and exactly the Validation capability. -/
def outVal : OutDesc :=
  { kind := RKind.ptr, implOp := true, implMutationOp := false,
    implValidationOp := true, implBackfillOp := false }

/-- A return type implementing `Op`, the Mutation capability AND the
Validation capability. -/
def outBoth : OutDesc :=
  { kind := RKind.ptr, implOp := true, implMutationOp := true,
    implValidationOp := true, implBackfillOp := false }

/-- A one-argument mutation function returning operation 11. -/
def f1c : Candidate :=
  { isFunc := true, inTypes := [ArgType.elemT 1], outTypes := [outMut],
    call := fun _ _ => some 11 }

/-- A one-argument mutation function returning nil for every element. -/
def f2c : Candidate :=
  { isFunc := true, inTypes := [ArgType.elemT 1], outTypes := [outMut],
    call := fun _ _ => none }

/-- A two-argument mutation function returning operation 13. -/
def f3c : Candidate :=
  { isFunc := true, inTypes := [ArgType.elemT 1, ArgType.twemPtr],
    outTypes := [outMut], call := fun _ _ => some 13 }

/-- A one-argument validation function returning operation 21. -/
def fValc : Candidate :=
  { isFunc := true, inTypes := [ArgType.elemT 1], outTypes := [outVal],
    call := fun _ _ => some 21 }

/-- A function whose return type implements both Mutation and Validation. -/
def cBoth : Candidate :=
  { isFunc := true, inTypes := [ArgType.elemT 1], outTypes := [outBoth],
    call := fun _ _ => some 31 }

/-- A candidate that is not a function at all. -/
def cNotFunc : Candidate :=
  { isFunc := false, inTypes := [], outTypes := [], call := fun _ _ => none }

/-- A return type implementing `Op` but none of the three capabilities. -/
def outOpOnly : OutDesc :=
  { kind := RKind.ptr, implOp := true, implMutationOp := false,
    implValidationOp := false, implBackfillOp := false }

/-- A well-shaped function whose return type implements no capability. -/
def cOpOnly : Candidate :=
  { isFunc := true, inTypes := [ArgType.elemT 1], outTypes := [outOpOnly],
    call := fun _ _ => some 41 }

/-! ### Lemmas about the element-to-target map construction -/

/-- The pairs `element ↦ position` recorded by the build loop for a target
list, starting at position `i`. -/
def elemPairs : List Target → Nat → List (Element × Nat)
  | [], _ => []
  | t :: rest, i => (t.element, i) :: elemPairs rest (i + 1)

theorem lookupET_eq_none_of_not_mem (m : List (Element × Nat)) (e : Element)
    (h : e ∉ m.map Prod.fst) : lookupET m e = none := by
  induction m with
  | nil => rfl
  | cons p rest ih =>
    simp only [List.map_cons, List.mem_cons, not_or] at h
    cases p with
    | mk k v =>
      simp only [lookupET]
      rw [if_neg (fun hk => h.1 hk.symm)]
      exact ih h.2

theorem lookupET_append_none (m : List (Element × Nat)) (k : Element) (v : Nat)
    (e : Element) (h : lookupET (m ++ [(k, v)]) e = none) :
    lookupET m e = none ∧ e ≠ k := by
  induction m with
  | nil =>
    simp only [List.nil_append, lookupET] at h
    by_cases hk : k = e
    · rw [if_pos hk] at h; exact absurd h (by simp)
    · exact ⟨rfl, fun he => hk he.symm⟩
  | cons p rest ih =>
    cases p with
    | mk k' v' =>
      simp only [List.cons_append, lookupET] at h ⊢
      by_cases hk : k' = e
      · rw [if_pos hk] at h; exact absurd h (by simp)
      · rw [if_neg hk] at h ⊢
        exact ih h

theorem lookupET_elemPairs (ts : List Target)
    (hnd : (ts.map Target.element).Nodup) :
    ∀ (i j : Nat) (hj : j < ts.length),
      lookupET (elemPairs ts i) ((ts.get ⟨j, hj⟩).element) = some (i + j) := by
  induction ts with
  | nil => intro i j hj; exact absurd hj (by simp)
  | cons t rest ih =>
    intro i j hj
    simp only [List.map_cons, List.nodup_cons] at hnd
    cases j with
    | zero => simp [elemPairs, lookupET]
    | succ j' =>
      have hj' : j' < rest.length := Nat.lt_of_succ_lt_succ hj
      have hmem : (rest.get ⟨j', hj'⟩).element ∈ rest.map Target.element :=
        List.mem_map_of_mem Target.element (rest.get_mem j' hj')
      have hne : t.element ≠ (rest.get ⟨j', hj'⟩).element :=
        fun he => hnd.1 (he ▸ hmem)
      simp only [elemPairs, List.get_cons_succ, lookupET]
      rw [if_neg hne, ih hnd.2 (i + 1) j' hj']
      congr 1
      omega

theorem buildElementToTarget_ok (ts : List Target) :
    ∀ (i : Nat) (m : List (Element × Nat)),
      (m.map Prod.fst ++ ts.map Target.element).Nodup →
      buildElementToTarget ts i m = Except.ok (m ++ elemPairs ts i) := by
  induction ts with
  | nil => intro i m _; simp [buildElementToTarget, elemPairs]
  | cons t rest ih =>
    intro i m h
    have hdisj := List.disjoint_of_nodup_append h
    have hmem : t.element ∉ m.map Prod.fst :=
      fun hm => hdisj hm (by simp)
    have hnone := lookupET_eq_none_of_not_mem m t.element hmem
    have hnd' : ((m ++ [(t.element, i)]).map Prod.fst ++ rest.map Target.element).Nodup := by
      simpa [List.map_append, List.append_assoc] using h
    simp only [buildElementToTarget, hnone]
    rw [ih (i + 1) (m ++ [(t.element, i)]) hnd']
    simp [elemPairs, List.append_assoc]

theorem buildElementToTarget_ok_inv (ts : List Target) :
    ∀ (i : Nat) (m r : List (Element × Nat)),
      buildElementToTarget ts i m = Except.ok r →
      (ts.map Target.element).Nodup ∧
        ∀ x ∈ ts.map Target.element, lookupET m x = none := by
  induction ts with
  | nil => intro i m r _; exact ⟨List.nodup_nil, by simp⟩
  | cons t rest ih =>
    intro i m r h
    simp only [buildElementToTarget] at h
    rcases hl : lookupET m t.element with - | v
    · rw [hl] at h
      obtain ⟨hnd, hall⟩ := ih (i + 1) _ r h
      have hsplit : ∀ x ∈ rest.map Target.element,
          lookupET m x = none ∧ x ≠ t.element :=
        fun x hx => lookupET_append_none m t.element i x (hall x hx)
      refine ⟨?_, ?_⟩
      · simp only [List.map_cons, List.nodup_cons]
        exact ⟨fun hm => (hsplit _ hm).2 rfl, hnd⟩
      · intro x hx
        simp only [List.map_cons, List.mem_cons] at hx
        rcases hx with rfl | hx
        · exact hl
        · exact (hsplit x hx).1
    · rw [hl] at h
      exact absurd h (by simp)

theorem buildElementToTarget_error_cls (ts : List Target) :
    ∀ (i : Nat) (m : List (Element × Nat)) (e : GoError),
      buildElementToTarget ts i m = Except.error e →
      e.cls = ErrClass.assertionFailed := by
  induction ts with
  | nil => intro i m e h; exact absurd h (by simp [buildElementToTarget])
  | cons t rest ih =>
    intro i m e h
    simp only [buildElementToTarget] at h
    rcases hl : lookupET m t.element with - | v
    · rw [hl] at h
      exact ih (i + 1) _ e h
    · rw [hl] at h
      simp only [Except.error.injEq] at h
      rw [← h]

/-- C3: for every `CurrentState` whose targets reference pairwise-distinct
elements, `makeTargetsWithElementMap` succeeds and the resulting
`elementToTarget` map sends the element of each target to that target's
position in the target sequence. -/
theorem buildIndex_distinct_elements_positions (cs : CurrentState)
    (h : (cs.targetState.targets.map Target.element).Nodup) :
    ∃ md, makeTargetsWithElementMap cs = Except.ok md ∧
      ∀ (j : Nat) (hj : j < cs.targetState.targets.length),
        lookupET md.elementToTarget ((cs.targetState.targets.get ⟨j, hj⟩).element) =
          some j := by
  have hb := buildElementToTarget_ok cs.targetState.targets 0 [] (by simpa using h)
  refine ⟨⟨cs.targetState, [] ++ elemPairs cs.targetState.targets 0, cs.inRollback⟩, ?_, ?_⟩
  · unfold makeTargetsWithElementMap
    rw [hb]
  · intro j hj
    show lookupET ([] ++ elemPairs cs.targetState.targets 0) _ = _
    rw [List.nil_append]
    simpa using lookupET_elemPairs cs.targetState.targets h 0 j hj

/-- Witness for C3 at the concrete two-element state `cs2`. -/
theorem buildIndex_distinct_elements_positions_witness :
    ∃ md, makeTargetsWithElementMap cs2 = Except.ok md ∧
      lookupET md.elementToTarget elemB = some 1 := by
  obtain ⟨md, hok, hall⟩ := buildIndex_distinct_elements_positions cs2 (by decide)
  refine ⟨md, hok, ?_⟩
  have h1 := hall 1 (by decide)
  have he : (cs2.targetState.targets.get ⟨1, by decide⟩).element = elemB := by decide
  rw [he] at h1
  exact h1

/-- C4: for every `CurrentState` containing two targets that reference the
same element, `makeTargetsWithElementMap` fails with an assertion-failure
(`errors.AssertionFailedf`, a Go panic) rather than returning an index. -/
theorem buildIndex_duplicate_element_fatal (cs : CurrentState) (i j : Nat)
    (hi : i < cs.targetState.targets.length)
    (hj : j < cs.targetState.targets.length) (hne : i ≠ j)
    (heq : (cs.targetState.targets.get ⟨i, hi⟩).element =
      (cs.targetState.targets.get ⟨j, hj⟩).element) :
    ∃ err, makeTargetsWithElementMap cs = Except.error err ∧
      err.cls = ErrClass.assertionFailed := by
  have hlen : i < (cs.targetState.targets.map Target.element).length := by simpa using hi
  have hlen' : j < (cs.targetState.targets.map Target.element).length := by simpa using hj
  have hnn : ¬ (cs.targetState.targets.map Target.element).Nodup := by
    intro hnd
    have hg : (cs.targetState.targets.map Target.element).get ⟨i, hlen⟩ =
        (cs.targetState.targets.map Target.element).get ⟨j, hlen'⟩ := by
      simpa using heq
    have := (List.Nodup.get_inj_iff hnd).mp hg
    exact hne (by simpa using this)
  rcases hb : buildElementToTarget cs.targetState.targets 0 [] with e | m
  · refine ⟨e, ?_, buildElementToTarget_error_cls _ _ _ _ hb⟩
    unfold makeTargetsWithElementMap
    rw [hb]
  · exact absurd (buildElementToTarget_ok_inv _ _ _ _ hb).1 hnn

/-- Witness for C4 at the concrete duplicate-target state `csDup`. -/
theorem buildIndex_duplicate_element_fatal_witness :
    ∃ err, makeTargetsWithElementMap csDup = Except.error err ∧
      err.cls = ErrClass.assertionFailed :=
  buildIndex_duplicate_element_fatal csDup 0 1 (by decide) (by decide)
    (by decide) (by decide)

/-! ### Lemmas about group compilation and dispatch -/

theorem compileLoop_ok_funcValues (el : Element) (fns : List Candidate) :
    ∀ (o t : ScopType) (acc vs : List Candidate),
      compileLoop el fns o acc = Except.ok (t, vs) → vs = acc ++ fns := by
  induction fns with
  | nil =>
    intro o t acc vs h
    simp only [compileLoop, Except.ok.injEq, Prod.mk.injEq] at h
    simp [← h.2]
  | cons fn rest ih =>
    intro o t acc vs h
    rcases hc : checkOpFunc el fn with e | typ
    · simp only [compileLoop, hc] at h
      exact absurd h (by simp)
    · simp only [compileLoop, hc] at h
      by_cases hg : 0 < acc.length ∧ typ ≠ o
      · rw [if_pos hg] at h; exact absurd h (by simp)
      · rw [if_neg hg] at h
        rw [ih typ t (acc ++ [fn]) vs h]
        simp

theorem dispatchOps_step (element : Element) (md : targetsWithElementMap)
    (vs : List Candidate) :
    ∀ acc : List Op,
      vs.foldl
        (fun ret fn =>
          let out :=
            if fn.inTypes.length = 1 then fn.call element none
            else fn.call element (some md)
          match out with
          | none => ret
          | some op => ret ++ [op])
        acc =
      acc ++ vs.filterMap
        (fun fn =>
          if fn.inTypes.length = 1 then fn.call element none
          else fn.call element (some md)) := by
  induction vs with
  | nil => intro acc; simp
  | cons fn rest ih =>
    intro acc
    simp only [List.foldl_cons, List.filterMap_cons]
    rcases hc : (if fn.inTypes.length = 1 then fn.call element none
      else fn.call element (some md)) with - | op
    · simpa [hc] using ih acc
    · simpa [hc, List.append_assoc] using ih (acc ++ [op])

theorem dispatchOps_eq_filterMap (vs : List Candidate) (element : Element)
    (md : targetsWithElementMap) :
    dispatchOps vs element md =
      vs.filterMap
        (fun fn =>
          if fn.inTypes.length = 1 then fn.call element none
          else fn.call element (some md)) := by
  simpa using dispatchOps_step element md vs []

theorem compileLoop_skip (el : Element) (t : ScopType) (pre : List Candidate)
    (hpre : ∀ fn ∈ pre, checkOpFunc el fn = Except.ok t) :
    ∀ (tail acc : List Candidate), acc ≠ [] →
      compileLoop el (pre ++ tail) t acc = compileLoop el tail t (acc ++ pre) := by
  induction pre with
  | nil => intro tail acc _; simp
  | cons fn rest ih =>
    intro tail acc hacc
    have hc := hpre fn (by simp)
    simp only [List.cons_append, compileLoop, hc, List.append_eq]
    rw [if_neg (by simp)]
    rw [ih (fun g hg => hpre g (by simp [hg])) tail (acc ++ [fn]) (by simp)]
    simp [List.append_assoc]

/-- C1: for every successfully compiled operation group, the dispatch closure
calls every compiled function in registration order — passing only the
element to one-argument functions and the element together with the index
to two-argument functions — and returns exactly the non-nil results in
that call order; a nil result contributes nothing and causes no error. -/
theorem dispatch_order_and_results (el : Element) (fns : List Candidate)
    (f : opsFunc) (t : ScopType)
    (h : makeOpsFunc el fns = Except.ok (f, t)) (element : Element)
    (md : targetsWithElementMap) :
    f element md =
      fns.filterMap
        (fun fn =>
          if fn.inTypes.length = 1 then fn.call element none
          else fn.call element (some md)) := by
  rcases hb : compileLoop el fns ScopType.unspecified [] with e | p
  · simp only [makeOpsFunc, hb] at h
    exact absurd h (by simp)
  · cases p with
    | mk o vs =>
      simp only [makeOpsFunc, hb] at h
      have hv := compileLoop_ok_funcValues el fns ScopType.unspecified o [] vs hb
      simp only [Except.ok.injEq, Prod.mk.injEq] at h
      rw [← h.1, dispatchOps_eq_filterMap, hv]
      simp

/-- Witness for C1: the spec's `[f1, f2, f3]` scenario where `f2` returns
nil — the group dispatches to `[op(f1), op(f3)]` in order. -/
theorem dispatch_order_and_results_witness :
    dispatchOps [f1c, f2c, f3c] elemA md0 = [11, 13] := by
  have h := dispatch_order_and_results elemA [f1c, f2c, f3c]
    (dispatchOps [f1c, f2c, f3c]) ScopType.mutation rfl elemA md0
  exact h.trans (by rfl)

/-- C5: all accepted functions of one group must agree on category — the
first accepted function's category becomes the group's category (reported
on success), and a later function resolving to a different category makes
compilation fail at once with a recoverable registration error. -/
theorem group_category_agreement :
    (∀ (el : Element) (t : ScopType) (f0 : Candidate) (fs : List Candidate),
      checkOpFunc el f0 = Except.ok t →
      (∀ fn ∈ fs, checkOpFunc el fn = Except.ok t) →
      makeOpsFunc el (f0 :: fs) = Except.ok (dispatchOps (f0 :: fs), t)) ∧
    (∀ (el : Element) (t tg : ScopType) (f0 g : Candidate)
        (pre rest : List Candidate),
      checkOpFunc el f0 = Except.ok t →
      (∀ fn ∈ pre, checkOpFunc el fn = Except.ok t) →
      checkOpFunc el g = Except.ok tg → tg ≠ t →
      makeOpsFunc el (f0 :: pre ++ g :: rest) =
        Except.error ⟨ErrClass.recoverable, "conflicting operation types"⟩) := by
  constructor
  · intro el t f0 fs hc0 hfs
    have hskip := compileLoop_skip el t fs hfs [] [f0] (by simp)
    rw [List.append_nil] at hskip
    unfold makeOpsFunc
    simp only [compileLoop, hc0, List.append_eq]
    rw [if_neg (by simp), List.nil_append]
    rw [hskip]
    simp [compileLoop]
  · intro el t tg f0 g pre rest hc0 hpre hcg hne
    unfold makeOpsFunc
    simp only [compileLoop, hc0, List.append_eq]
    rw [if_neg (by simp), List.nil_append]
    have hskip := compileLoop_skip el t pre hpre (g :: rest) [f0] (by simp)
    rw [hskip]
    simp only [compileLoop, hcg]
    rw [if_pos ⟨by simp, hne⟩]

/-- Witness for C5: a homogeneous mutation group compiles to the mutation
category, while appending a validation function to a mutation function
fails with the conflicting-categories registration error. -/
theorem group_category_agreement_witness :
    makeOpsFunc elemA [f1c, f3c] =
      Except.ok (dispatchOps [f1c, f3c], ScopType.mutation) ∧
    makeOpsFunc elemA [f1c, fValc] =
      Except.error ⟨ErrClass.recoverable, "conflicting operation types"⟩ := by
  constructor
  · exact group_category_agreement.1 elemA ScopType.mutation f1c [f3c] rfl
      (by intro fn hfn; rw [List.mem_singleton] at hfn; subst hfn; rfl)
  · exact group_category_agreement.2 elemA ScopType.mutation ScopType.validation
      f1c fValc [] [] rfl (by intro fn hfn; exact absurd hfn (by simp)) rfl
      (by decide)

/-- C10: compiling a group from an empty function list succeeds, reports the
zero (unspecified) category, and yields a dispatcher returning the empty
operation sequence for every element and index. -/
theorem empty_group_compiles (el : Element) :
    makeOpsFunc el [] = Except.ok (dispatchOps [], ScopType.unspecified) ∧
    ∀ (e : Element) (md : targetsWithElementMap), dispatchOps [] e md = [] :=
  ⟨rfl, fun _ _ => rfl⟩

/-! ### Shape checking and category resolution -/

/-- The accepted reflective shape of a candidate: a function taking exactly
the element kind, or the element kind followed by the
`*targetsWithElementMap` type, and returning exactly one value of a
pointer type implementing `scop.Op`. -/
abbrev goodShape (el : Element) (fn : Candidate) : Prop :=
  fn.isFunc = true ∧
  (fn.inTypes = [ArgType.elemT el.kind] ∨
    fn.inTypes = [ArgType.elemT el.kind, ArgType.twemPtr]) ∧
  fn.outTypes.length = 1 ∧
  ∀ out ∈ fn.outTypes, out.kind = RKind.ptr ∧ out.implOp = true

theorem list_eq_singleton_headD {α : Type} [Inhabited α] (l : List α)
    (h : l.length = 1) : l = [l.headD default] := by
  rcases l with - | ⟨x, xs⟩
  · exact absurd h (by simp)
  · rcases xs with - | ⟨y, ys⟩
    · rfl
    · exact absurd h (by simp)

theorem checkOpFunc_ok_shape (el : Element) (fn : Candidate) (t : ScopType)
    (h : checkOpFunc el fn = Except.ok t) : goodShape el fn := by
  unfold checkOpFunc at h
  by_cases h1 : fn.isFunc = false
  · rw [if_pos h1] at h
    exact absurd h (by simp)
  · rw [if_neg h1] at h
    by_cases h2 : fn.inTypes ≠ [ArgType.elemT el.kind] ∧
        fn.inTypes ≠ [ArgType.elemT el.kind, ArgType.twemPtr]
    · rw [if_pos h2] at h
      exact absurd h (by simp)
    · rw [if_neg h2] at h
      by_cases h3 : fn.outTypes.length ≠ 1
      · rw [if_pos h3] at h
        exact absurd h (by simp)
      · rw [if_neg h3] at h
        by_cases h4 : (fn.outTypes.headD default).kind ≠ RKind.ptr ∨
            (fn.outTypes.headD default).implOp = false
        · rw [if_pos h4] at h
          exact absurd h (by simp)
        · push_neg at h2 h3 h4
          refine ⟨by simpa using h1, ?_, h3, ?_⟩
          · by_cases ha : fn.inTypes = [ArgType.elemT el.kind]
            · exact Or.inl ha
            · exact Or.inr (h2 ha)
          · intro o ho
            rw [list_eq_singleton_headD fn.outTypes h3, List.mem_singleton] at ho
            subst ho
            exact ⟨h4.1, by simpa using h4.2⟩

theorem checkOpFunc_bad_shape (el : Element) (fn : Candidate)
    (h : ¬ goodShape el fn) :
    ∃ err, checkOpFunc el fn = Except.error err ∧
      err.cls = ErrClass.recoverable := by
  unfold checkOpFunc
  by_cases h1 : fn.isFunc = false
  · rw [if_pos h1]
    exact ⟨_, rfl, rfl⟩
  · rw [if_neg h1]
    by_cases h2 : fn.inTypes ≠ [ArgType.elemT el.kind] ∧
        fn.inTypes ≠ [ArgType.elemT el.kind, ArgType.twemPtr]
    · rw [if_pos h2]
      exact ⟨_, rfl, rfl⟩
    · rw [if_neg h2]
      by_cases h3 : fn.outTypes.length ≠ 1
      · rw [if_pos h3]
        exact ⟨_, rfl, rfl⟩
      · rw [if_neg h3]
        by_cases h4 : (fn.outTypes.headD default).kind ≠ RKind.ptr ∨
            (fn.outTypes.headD default).implOp = false
        · rw [if_pos h4]
          exact ⟨_, rfl, rfl⟩
        · exfalso
          apply h
          push_neg at h2 h3 h4
          refine ⟨by simpa using h1, ?_, h3, ?_⟩
          · by_cases ha : fn.inTypes = [ArgType.elemT el.kind]
            · exact Or.inl ha
            · exact Or.inr (h2 ha)
          · intro o ho
            rw [list_eq_singleton_headD fn.outTypes h3, List.mem_singleton] at ho
            subst ho
            exact ⟨h4.1, by simpa using h4.2⟩

theorem checkOpFunc_good (el : Element) (fn : Candidate) (out : OutDesc)
    (hg : goodShape el fn) (hout : fn.outTypes = [out]) :
    checkOpFunc el fn =
      (if out.implMutationOp then Except.ok ScopType.mutation
       else if out.implValidationOp then Except.ok ScopType.validation
       else if out.implBackfillOp then Except.ok ScopType.backfill
       else Except.error ⟨ErrClass.assertionFailed,
         "implemented Op but does not conform to any known type"⟩) := by
  obtain ⟨h1, h2, hlen, hall⟩ := hg
  have hhd : fn.outTypes.headD default = out := by rw [hout]; rfl
  have hk := hall out (by simp [hout])
  unfold checkOpFunc
  rw [if_neg (by simp [h1])]
  rw [if_neg (by rcases h2 with hA | hA <;> simp [hA])]
  rw [if_neg (by simp [hlen])]
  rw [hhd]
  rw [if_neg (by simp [hk.1, hk.2])]

/-- C6: group compilation accepts a candidate only when it is a function of
one of the two admitted shapes returning one pointer value implementing
`scop.Op`; every other reflective shape is rejected with a recoverable
registration error. -/
theorem candidate_shape_checked :
    (∀ (el : Element) (fn : Candidate) (t : ScopType),
      checkOpFunc el fn = Except.ok t →
      fn.isFunc = true ∧
        (fn.inTypes = [ArgType.elemT el.kind] ∨
          fn.inTypes = [ArgType.elemT el.kind, ArgType.twemPtr]) ∧
        fn.outTypes.length = 1 ∧
        ∀ out ∈ fn.outTypes, out.kind = RKind.ptr ∧ out.implOp = true) ∧
    (∀ (el : Element) (fn : Candidate), ¬ goodShape el fn →
      ∃ err, checkOpFunc el fn = Except.error err ∧
        err.cls = ErrClass.recoverable) :=
  ⟨checkOpFunc_ok_shape, checkOpFunc_bad_shape⟩

/-- Witness for C6: the accepted shape of `f3c`, and the rejection of a
non-function candidate with a recoverable error. -/
theorem candidate_shape_checked_witness :
    (f3c.isFunc = true ∧
      (f3c.inTypes = [ArgType.elemT elemA.kind] ∨
        f3c.inTypes = [ArgType.elemT elemA.kind, ArgType.twemPtr]) ∧
      f3c.outTypes.length = 1 ∧
      ∀ out ∈ f3c.outTypes, out.kind = RKind.ptr ∧ out.implOp = true) ∧
    ∃ err, checkOpFunc elemA cNotFunc = Except.error err ∧
      err.cls = ErrClass.recoverable :=
  ⟨candidate_shape_checked.1 elemA f3c ScopType.mutation rfl,
   candidate_shape_checked.2 elemA cNotFunc (by decide)⟩

/-- The category a group compilation reports, when it succeeds. -/
def compiledType (el : Element) (fns : List Candidate) : Option ScopType :=
  match makeOpsFunc el fns with
  | Except.ok (_, t) => some t
  | Except.error _ => none

/-- Counterexample to C2 as stated: `cBoth`'s return type implements both
the Mutation and the Validation capability, yet group compilation succeeds
(resolving to the Mutation category by switch order) instead of failing
with a registration error. -/
theorem capability_multi_accepted_counterexample :
    outBoth.implMutationOp = true ∧ outBoth.implValidationOp = true ∧
    cBoth.outTypes = [outBoth] ∧
    compiledType elemA [cBoth] = some ScopType.mutation :=
  ⟨rfl, rfl, rfl, rfl⟩

/-- C2 (amended): for a well-shaped candidate, the return type resolves to
the first capability it implements in the fixed order Mutation,
Validation, Backfill — so a type implementing several capabilities is
accepted with the highest-priority one — and only a type implementing
none of the three makes compilation fail, with an
`AssertionFailedf`-class registration error. -/
theorem capability_resolution (el : Element) (fn : Candidate) (out : OutDesc)
    (hg : goodShape el fn) (hout : fn.outTypes = [out]) :
    (out.implMutationOp = true → checkOpFunc el fn = Except.ok ScopType.mutation) ∧
    (out.implMutationOp = false → out.implValidationOp = true →
      checkOpFunc el fn = Except.ok ScopType.validation) ∧
    (out.implMutationOp = false → out.implValidationOp = false →
      out.implBackfillOp = true →
      checkOpFunc el fn = Except.ok ScopType.backfill) ∧
    (out.implMutationOp = false → out.implValidationOp = false →
      out.implBackfillOp = false →
      checkOpFunc el fn = Except.error ⟨ErrClass.assertionFailed,
        "implemented Op but does not conform to any known type"⟩) := by
  rw [checkOpFunc_good el fn out hg hout]
  refine ⟨fun hm => by simp [hm], fun hm hv => by simp [hm, hv],
    fun hm hv hb => by simp [hm, hv, hb], fun hm hv hb => by simp [hm, hv, hb]⟩

/-- Witness for C2 (amended): `cBoth` resolves to Mutation despite also
implementing Validation, and a well-shaped candidate whose return type
implements no capability fails with an assertion-failure error. -/
theorem capability_resolution_witness :
    checkOpFunc elemA cBoth = Except.ok ScopType.mutation ∧
    checkOpFunc elemA cOpOnly = Except.error ⟨ErrClass.assertionFailed,
      "implemented Op but does not conform to any known type"⟩ :=
  ⟨(capability_resolution elemA cBoth outBoth (by decide) rfl).1 rfl,
   (capability_resolution elemA cOpOnly outOpOnly (by decide) rfl).2.2.2 rfl rfl rfl⟩


theorem goIndex_some {α : Type} (l : List α) (i : Nat) (x : α)
    (h : l.get? i = some x) : goIndex l i = Except.ok x := by
  unfold goIndex
  rw [h]

/-- C7 (amended): the base-event and log-event builders, invoked on an
element absent from the target index, panic with an assertion failure
whose message carries the element's display string. (The drop-job
statement builder does not share this behaviour: see the counterexample.) -/
theorem event_builders_absent_element_fatal (e : Element)
    (md : targetsWithElementMap) (h : lookupET md.elementToTarget e = none) :
    newLogEventBase e md = Except.error ⟨ErrClass.assertionFailed,
      "could not find element " ++ elementString e ++ " in target state"⟩ ∧
    newLogEventOp e md = Except.error ⟨ErrClass.assertionFailed,
      "could not find element " ++ elementString e ++ " in target state"⟩ := by
  constructor
  · unfold newLogEventBase
    rw [h]
  · unfold newLogEventOp
    rw [h]

/-- Witness for the amended C7 at the concrete absent element `elemB`. -/
theorem event_builders_absent_element_fatal_witness :
    newLogEventBase elemB md0 = Except.error ⟨ErrClass.assertionFailed,
      "could not find element " ++ elementString elemB ++ " in target state"⟩ ∧
    newLogEventOp elemB md0 = Except.error ⟨ErrClass.assertionFailed,
      "could not find element " ++ elementString elemB ++ " in target state"⟩ :=
  event_builders_absent_element_fatal elemB md0 (by decide)

/-- Counterexample to C7 as stated: `md0` is the index really built from
`cs0`, `elemB` is absent from it, yet `statementForDropJob` returns a
result (derived from the map's zero value, target 0) instead of raising a
fatal assertion failure. -/
theorem dropjob_absent_element_no_panic_counterexample :
    makeTargetsWithElementMap cs0 = Except.ok md0 ∧
    lookupET md0.elementToTarget elemB = none ∧
    statementForDropJob elemB md0 =
      Except.ok { statement := stripMarkers stmtRec0.redactedStatement,
                  statementID := 0, rollback := false } :=
  ⟨rfl, by decide, rfl⟩

/-- C9: for an element present in the index (with its target and statement
records in range), the drop-job builder returns the redacted statement
text with markers stripped, the statement id recorded in the target's
metadata, and the plan's rollback flag. -/
theorem statementForDropJob_fields (e : Element) (md : targetsWithElementMap)
    (idx : Nat) (t : Target) (stmt : Statement)
    (h1 : lookupET md.elementToTarget e = some idx)
    (h2 : md.targetState.targets.get? idx = some t)
    (h3 : md.targetState.statements.get? t.metadata.statementID = some stmt) :
    statementForDropJob e md =
      Except.ok { statement := stripMarkers stmt.redactedStatement,
                  statementID := t.metadata.statementID,
                  rollback := md.inRollback } := by
  have g2 := goIndex_some _ _ _ h2
  have g3 := goIndex_some _ _ _ h3
  simp only [statementForDropJob, h1, Option.getD_some, g2, g3]

/-- Witness for C9 at the concrete present element `elemA`. -/
theorem statementForDropJob_fields_witness :
    statementForDropJob elemA md0 =
      Except.ok { statement := stripMarkers stmtRec0.redactedStatement,
                  statementID := 0, rollback := false } :=
  statementForDropJob_fields elemA md0 0
    { element := elemA, targetStatus := 1, metadata := mdMetaA } stmtRec0
    rfl rfl rfl

/-! ### Independence of the defensive copies (storage level) -/

theorem readH_writeH_ne {α : Type} (h : Heap α) (a b : Nat) (v : α)
    (hab : a ≠ b) : readH (writeH h a v) b = readH h b := by
  unfold readH writeH
  exact List.get?_set_ne v h hab

/-- C8: for an element present in the index, the event's metadata and
authorization records are structurally equal to the originals but live in
fresh storage: their addresses differ from the originals', and mutating
the original records after the call leaves the event's records unchanged. -/
theorem event_copies_independent (st : PlanStore) (e : Element) (md : TwemRef)
    (idx : Nat) (t : TargetR)
    (h1 : lookupET md.etMap e = some idx)
    (h2 : md.targetsR.get? idx = some t)
    (hmd : t.mdAddr < st.mdHeap.length)
    (hauth : md.authAddr < st.authHeap.length) :
    ∃ st2 ev, newLogEventBaseH st e md = Except.ok (st2, ev) ∧
      readH st2.mdHeap ev.mdAddr = readH st.mdHeap t.mdAddr ∧
      readH st2.authHeap ev.authAddr = readH st.authHeap md.authAddr ∧
      ev.mdAddr ≠ t.mdAddr ∧ ev.authAddr ≠ md.authAddr ∧
      (∀ v, readH (writeH st2.mdHeap t.mdAddr v) ev.mdAddr =
        readH st2.mdHeap ev.mdAddr) ∧
      (∀ v, readH (writeH st2.authHeap md.authAddr v) ev.authAddr =
        readH st2.authHeap ev.authAddr) := by
  rcases hm : st.mdHeap.get? t.mdAddr with - | m
  · rw [List.get?_eq_none] at hm
    omega
  · rcases ha : st.authHeap.get? md.authAddr with - | a
    · rw [List.get?_eq_none] at ha
      omega
    · have hidx : goIndex md.targetsR idx = Except.ok t := goIndex_some _ _ _ h2
      refine ⟨{ mdHeap := st.mdHeap ++ [m], authHeap := st.authHeap ++ [a] },
        { mdAddr := st.mdHeap.length, authAddr := st.authHeap.length },
        ?_, ?_, ?_, ?_, ?_, ?_, ?_⟩
      · simp only [newLogEventBaseH, h1, hidx, cloneH, hm, ha, Option.toList]
      · show (st.mdHeap ++ [m]).get? st.mdHeap.length = st.mdHeap.get? t.mdAddr
        rw [List.get?_concat_length, hm]
      · show (st.authHeap ++ [a]).get? st.authHeap.length =
          st.authHeap.get? md.authAddr
        rw [List.get?_concat_length, ha]
      · exact Nat.ne_of_gt hmd
      · exact Nat.ne_of_gt hauth
      · intro v
        exact readH_writeH_ne _ _ _ v (Nat.ne_of_lt hmd)
      · intro v
        exact readH_writeH_ne _ _ _ v (Nat.ne_of_lt hauth)

/-- Witness for C8 at a concrete one-cell store. -/
theorem event_copies_independent_witness :
    ∃ st2 ev,
      newLogEventBaseH { mdHeap := [mdMetaA], authHeap := [auth0] } elemA
          { targetsR := [{ element := elemA, mdAddr := 0 }],
            etMap := [(elemA, 0)], authAddr := 0 } =
        Except.ok (st2, ev) ∧
      readH st2.mdHeap ev.mdAddr = readH [mdMetaA] 0 ∧
      readH st2.authHeap ev.authAddr = readH [auth0] 0 ∧
      ev.mdAddr ≠ 0 ∧ ev.authAddr ≠ 0 ∧
      (∀ v, readH (writeH st2.mdHeap 0 v) ev.mdAddr =
        readH st2.mdHeap ev.mdAddr) ∧
      (∀ v, readH (writeH st2.authHeap 0 v) ev.authAddr =
        readH st2.authHeap ev.authAddr) :=
  event_copies_independent { mdHeap := [mdMetaA], authHeap := [auth0] } elemA
    { targetsR := [{ element := elemA, mdAddr := 0 }],
      etMap := [(elemA, 0)], authAddr := 0 }
    0 { element := elemA, mdAddr := 0 } rfl rfl (by decide) (by decide)


end Opgen
